import Mathlib

/-!
# Verification of the dev-setup orchestration core

A shallow embedding of the `@kitiumai/dev-setup` CLI's core logic:

* the retrying executor `safeExecuteCommand` (utils, lines 134-170),
* the environment probe `detectOperatingSystem` (utils, lines 22-30),
* the preflight checker `runPreflightChecks` (utils, lines 251-270),
* the error classifier `extractErrorMetadata` (src/utils/errors.ts),
* the "Install Core Tools" and "Install Editors" pipeline steps
  (src/index.ts, lines 214-347 and 350-445).

Effectful inputs of the source (the host platform probe, the tool
availability probe `isToolAvailable`, the external install commands) are
modelled as explicit function parameters; the mutable `SetupContext` is
threaded as explicit state.  Logger output is modelled as an explicit
list of messages, distinct from the context's `taskResults` sequence,
mirroring the source where `logTaskResult` only logs and does not append
a task result.
-/

namespace DevSetup

/-- Task status, mirroring `'success' | 'skipped' | 'failed'` in types.ts. -/
inductive Status where
  | success
  | skipped
  | failed
deriving DecidableEq, Repr

/-- `SetupTaskResult` from types.ts: `{name, status, message?}`
(the `error?` field carries no information the claims consult). -/
structure TaskResult where
  name : String
  status : Status
  message : Option String
deriving DecidableEq, Repr

/-- The mutable `SetupContext`.  `installedTools` / `installedEditors` are
JS `Set`s of enum string values, modelled as duplicate-free insertion-order
lists; `taskResults` is the append-only result log. -/
structure SetupContext where
  platform : String
  packageManager : Option String
  installedTools : List String
  installedEditors : List String
  taskResults : List TaskResult
deriving DecidableEq, Repr

/-- JS `Set.add`: insert at the end if not already present. -/
def addToSet (x : String) (l : List String) : List String :=
  if x ∈ l then l else l ++ [x]

/-- `SetupConfig` as built by the CLI action handler (src/index.ts,
lines 94-103).  `skipTools`, `skipEditors`, `allowlist` and `blocklist`
come from `String.split(',')` casts, so their entries are arbitrary
strings, not guaranteed enum members. -/
structure SetupConfig where
  skipTools : Option (List String)
  skipEditors : Option (List String)
  dryRun : Bool
  maxRetries : Option Nat
  allowlist : Option (List String)
  blocklist : Option (List String)
deriving DecidableEq, Repr

/-! ## Environment probe (utils, lines 22-30) -/

/-- `detectOperatingSystem`: the host string from `os.platform()` is the
explicit argument. -/
def detectOperatingSystem (platform : String) : String :=
  if platform = "win32" ∨ platform = "darwin" ∨ platform = "linux" then
    platform
  else
    "linux"

/-! ## Retrying executor (utils, lines 134-170)

The action is modelled as a function from the number of prior invocations
to an `Except` value, so that "fails on every invocation" and invocation
counting are expressible.  The returned trace records the result, the
total number of invocations of the action, and the backoff delays awaited
(in order) between attempts. -/

/-- The semantic fields of `safeExecuteCommand`'s `options` parameter, in
source order.  `tool`, `platform` and `commandLabel` only feed log
output in the source and carry no semantics here. -/
structure ExecOptions where
  tool : Option String
  platform : Option String
  retries : Option Nat
  backoffMs : Option Nat
  dryRun : Bool
  commandLabel : Option String
deriving DecidableEq, Repr

/-- Observable outcome of one `safeExecuteCommand` run: the returned
value, how many times the action was invoked, and the awaited delays. -/
structure ExecTrace (T : Type) where
  result : T
  calls : Nat
  delays : List Nat
deriving DecidableEq, Repr

/-- The `while (true)` retry loop of `safeExecuteCommand`.  `attempt` is
the source's `attempt` counter; `remaining` is `retries - attempt`, the
structural fuel (the loop exits once `attempt >= retries`). -/
def safeExecGo {T E : Type} (action : Nat → Except E T) (fallback : T)
    (backoffMs : Nat) (attempt : Nat) (remaining : Nat) (calls : Nat)
    (delays : List Nat) : ExecTrace T :=
  match action calls with
  | Except.ok v => ⟨v, calls + 1, delays⟩
  | Except.error _ =>
    match remaining with
    | 0 => ⟨fallback, calls + 1, delays⟩
    | r + 1 =>
      safeExecGo action fallback backoffMs (attempt + 1) r (calls + 1)
        (delays ++ [backoffMs * 2 ^ (attempt + 1 - 1)])

/-- `safeExecuteCommand(fn, fallback, options)`: dry-run short-circuit,
then the retry loop with `retries = options?.retries ?? 0` and
`backoffMs = options?.backoffMs ?? 300`. -/
def safeExecuteCommand {T E : Type} (action : Nat → Except E T)
    (fallback : T) (options : ExecOptions) : ExecTrace T :=
  if options.dryRun then
    ⟨fallback, 0, []⟩
  else
    safeExecGo action fallback (options.backoffMs.getD 300) 0
      (options.retries.getD 0) 0 []

/-! ## Preflight checker (utils, lines 251-270)

The three probes (`detectPrivilege`, `detectDiskSpaceMb`,
`detectNetworkReachability`) are effectful; their results are the
explicit arguments.  A failed disk probe yields `none` (`undefined` in
the source), never zero. -/

def privilegeWarning : String :=
  "Elevated privileges not detected; some installs may fail."

def lowDiskWarning : String :=
  "Low disk space detected (<2GB)."

def networkWarning : String :=
  "Network reachability check failed; offline mode recommended."

/-- `PreflightResult` from types: privilege, optional measured disk
space (MB), network reachability, ordered warnings. -/
structure PreflightResult where
  hasSudo : Bool
  diskSpaceMb : Option Nat
  networkReachable : Bool
  warnings : List String
deriving DecidableEq, Repr

/-- `runPreflightChecks`, with the probe outcomes as arguments; warnings
accumulate in source order: privilege, then disk, then network. -/
def runPreflightChecks (hasSudo : Bool) (diskSpaceMb : Option Nat)
    (networkReachable : Bool) : PreflightResult :=
  let w1 : List String := if hasSudo then [] else [privilegeWarning]
  let w2 : List String :=
    w1 ++ (match diskSpaceMb with
      | some d => if d < 2048 then [lowDiskWarning] else []
      | none => [])
  let w3 : List String := w2 ++ (if networkReachable then [] else [networkWarning])
  ⟨hasSudo, diskSpaceMb, networkReachable, w3⟩

/-- The disk-space signal of the preflight checker: a successfully
measured value strictly below 2048 MB. -/
def diskLow : Option Nat → Bool
  | some d => decide (d < 2048)
  | none => false

/-! ## Error classifier (src/utils/errors.ts, lines 24-46) -/

/-- A raw failure value as seen by `extractErrorMetadata`: either a
structured `KitiumError` carrying its metadata fields, or any other
thrown value (modelled with an opaque string payload). -/
inductive ErrValue where
  | kitium (code kind severity : String) (statusCode : Nat)
      (retryable : Bool) (help docs : Option String)
  | other (payload : String)
deriving DecidableEq, Repr

/-- The `instanceof KitiumError` test. -/
def ErrValue.isKitiumInstance : ErrValue → Bool
  | ErrValue.kitium _ _ _ _ _ _ _ => true
  | ErrValue.other _ => false

/-- `ErrorMetadata` from src/utils/errors.ts. -/
structure ErrorMetadata where
  code : String
  kind : String
  severity : String
  statusCode : Nat
  retryable : Bool
  help : Option String
  docs : Option String
deriving DecidableEq, Repr

/-- `extractErrorMetadata`: copy the fields of a `KitiumError`; any other
value maps to the fixed `devsetup/unknown` metadata. -/
def extractErrorMetadata : ErrValue → ErrorMetadata
  | ErrValue.kitium c k s sc r h d => ⟨c, k, s, sc, r, h, d⟩
  | ErrValue.other _ => ⟨"devsetup/unknown", "unknown", "error", 500, false, none, none⟩

/-! ## Install Core Tools step (src/index.ts, lines 214-347)

`isToolAvailable` is an effectful probe and is passed as `avail :
String → Bool` (detection command name → available).  The external
install commands are represented by the list of package names a spawned
command would receive; `executorCalled` records whether the step reached
its `safeExecuteCommand` call at all. -/

/-- A core-tool candidate `{package, command, label}`. -/
structure ToolCandidate where
  pkg : String
  command : String
  label : String
deriving DecidableEq, Repr

/-- The platform-specific `coreTools` table (src/index.ts, lines 224-237).
The `label` strings are the `DevTool` enum values. -/
def coreToolsFor (platform : String) : List ToolCandidate :=
  if platform = "win32" then
    [⟨"git", "git", "git"⟩, ⟨"nodejs-lts", "node", "node"⟩,
     ⟨"graphviz", "dot", "graphviz"⟩, ⟨"python", "python", "python"⟩]
  else
    [⟨"git", "git", "git"⟩, ⟨"node", "node", "node"⟩,
     ⟨"graphviz", "dot", "graphviz"⟩, ⟨"python", "python3", "python"⟩]

/-- The task result pushed when a candidate is rejected by the
blocklist. -/
def blockedResult (label : String) : TaskResult :=
  ⟨label ++ " Installation", Status.skipped, some "Blocked by policy"⟩

/-- One iteration of the `coreTools.filter` callback (src/index.ts,
lines 246-261): blocklist first (push a skipped "Blocked by policy"
result and reject), then allowlist (reject silently), else accept.  The
accumulator carries the accepted candidates and the task results pushed
so far. -/
def policyFilterStep (config : SetupConfig)
    (acc : List ToolCandidate × List TaskResult) (tool : ToolCandidate) :
    List ToolCandidate × List TaskResult :=
  if (config.blocklist.getD []).contains tool.label then
    (acc.1, acc.2 ++ [blockedResult tool.label])
  else if config.allowlist.isSome && !((config.allowlist.getD []).contains tool.label) then
    acc
  else
    (acc.1 ++ [tool], acc.2)

/-- The whole `coreTools.filter(...)` pass with its task-result side
effects. -/
def policyFilterTools (config : SetupConfig) (tools : List ToolCandidate) :
    List ToolCandidate × List TaskResult :=
  tools.foldl (policyFilterStep config) ([], [])

/-- Which packages the core-tools install dispatch (src/index.ts, lines
295-314) hands to an external command, given platform and package
manager; the unmatched fall-through spawns nothing. -/
def runCoreInstallPackages (platform : String) (pm : Option String)
    (packages : List String) : List String :=
  if platform = "win32" && pm = some "chocolatey" then packages
  else if platform = "win32" && pm = some "winget" then packages
  else if platform = "darwin" && pm = some "homebrew" then packages
  else if platform = "linux" && pm.isSome then packages
  else []

/-- Observable outcome of the Install Core Tools step. -/
structure CoreToolsOutcome where
  ctx : SetupContext
  executorCalled : Bool
  invoked : List String
  logs : List String
deriving DecidableEq, Repr

/-- The "Install Core Tools" task body (src/index.ts, lines 215-347):
skip-both-git-and-node early exit; policy filter; `missingTools` from
the availability probe; the policy-empty and already-installed early
returns; otherwise the executor-wrapped install, after which all missing
tools are marked installed and a success result is pushed (the executor
never throws, so the catch branch is unreachable from it). -/
def installCoreToolsTask (config : SetupConfig) (avail : String → Bool)
    (ctx : SetupContext) : CoreToolsOutcome :=
  if (config.skipTools.getD []).contains "git" &&
      (config.skipTools.getD []).contains "node" then
    ⟨ctx, false, [], ["Skipping core tools installation as requested"]⟩
  else
    let coreTools := coreToolsFor ctx.platform
    let filtered := policyFilterTools config coreTools
    let policyFiltered := filtered.1
    let ctx1 := { ctx with taskResults := ctx.taskResults ++ filtered.2 }
    let missingTools := policyFiltered.filter (fun t => !(avail t.command))
    if policyFiltered.isEmpty then
      ⟨{ ctx1 with taskResults := ctx1.taskResults ++
          [⟨"Core Tools Installation", Status.skipped, some "Policy enforcement"⟩] },
        false, [], ["Core tools skipped due to allow/block policy"]⟩
    else if missingTools.isEmpty then
      ⟨{ ctx1 with
          installedTools :=
            coreTools.foldl (fun s t => addToSet t.label s) ctx1.installedTools,
          taskResults := ctx1.taskResults ++
            [⟨"Core Tools Installation", Status.skipped, some "Already installed"⟩] },
        false, [],
        ["All core tools already available",
         "Task skipped: Core Tools Installation"]⟩
    else
      let invoked :=
        if config.dryRun then []
        else runCoreInstallPackages ctx.platform ctx.packageManager
          (missingTools.map (fun t => t.pkg))
      ⟨{ ctx1 with
          installedTools :=
            missingTools.foldl (fun s t => addToSet t.label s) ctx1.installedTools,
          taskResults := ctx1.taskResults ++
            [⟨"Core Tools Installation", Status.success, none⟩] },
        true, invoked, ["Core tools installation completed"]⟩

/-! ## Install Editors step (src/index.ts, lines 350-445)

Each editor has its own sub-task.  `install : String → Option String`
models the external install command: `none` is success, `some msg` is a
raised failure with message `msg`.  In the source the "already present"
branch calls `logTaskResult` (which only logs) and does **not** push to
`context.taskResults`; the model keeps log output and task results
separate to preserve this. -/

/-- An editor candidate `{name, package, tool}`; `tool` is the `Editor`
enum string value. -/
structure EditorCandidate where
  name : String
  pkg : String
  tool : String
deriving DecidableEq, Repr

/-- The platform-specific `editors` table (src/index.ts, lines 357-368). -/
def editorsFor (platform : String) : List EditorCandidate :=
  if platform = "win32" then
    [⟨"VSCode", "vscode", "vscode"⟩, ⟨"Cursor", "cursor", "cursor"⟩,
     ⟨"Antigravity", "antigravity", "antigravity"⟩]
  else
    [⟨"VSCode", "visual-studio-code", "vscode"⟩, ⟨"Cursor", "cursor", "cursor"⟩,
     ⟨"Antigravity", "antigravity", "antigravity"⟩]

/-- `Object.keys(Editor)` of the three-member `Editor` enum. -/
def editorEnumKeys : List String := ["VSCode", "Cursor", "Antigravity"]

/-- Whether the per-editor install dispatch (src/index.ts, lines 400-408)
spawns an external command: always on win32 and darwin, on linux only
when a package manager was selected, and never otherwise. -/
def editorCommandRuns (platform : String) (pm : Option String) : Bool :=
  if platform = "win32" then true
  else if platform = "darwin" then true
  else if platform = "linux" && pm.isSome then true
  else false

/-- Observable outcome of an editor sub-task (and of the whole group):
the updated context, the packages an install command ran for, and the
log messages emitted. -/
structure EditorStepOutcome where
  ctx : SetupContext
  invoked : List String
  logs : List String
deriving DecidableEq, Repr

/-- One editor sub-task (src/index.ts, lines 373-441): blocklist (push a
skipped "Blocked by policy" result), allowlist (silent), skipEditors
(silent), availability (mark installed, log only), then the install
attempt with its success/failure recording. -/
def installEditorStep (config : SetupConfig) (avail : String → Bool)
    (install : String → Option String) (ctx : SetupContext)
    (e : EditorCandidate) : EditorStepOutcome :=
  if (config.blocklist.getD []).contains e.tool then
    ⟨{ ctx with taskResults := ctx.taskResults ++
        [⟨e.name ++ " Installation", Status.skipped, some "Blocked by policy"⟩] },
      [], [e.name ++ " is blocked by policy"]⟩
  else if config.allowlist.isSome && !((config.allowlist.getD []).contains e.tool) then
    ⟨ctx, [], [e.name ++ " not in allowlist; skipping"]⟩
  else if (config.skipEditors.getD []).contains e.tool then
    ⟨ctx, [], ["Skipping " ++ e.name ++ " installation"]⟩
  else if avail e.pkg then
    ⟨{ ctx with installedEditors := addToSet e.tool ctx.installedEditors },
      [],
      [e.name ++ " already present; skipping install",
       "Task skipped: " ++ e.name ++ " Installation"]⟩
  else
    let ran := editorCommandRuns ctx.platform ctx.packageManager
    match (if ran then install e.pkg else none) with
    | none =>
      ⟨{ ctx with
          installedEditors := addToSet e.tool ctx.installedEditors,
          taskResults := ctx.taskResults ++
            [⟨e.name ++ " Installation", Status.success, none⟩] },
        (if ran then [e.pkg] else []),
        [e.name ++ " installed successfully"]⟩
    | some msg =>
      ⟨{ ctx with taskResults := ctx.taskResults ++
          [⟨e.name ++ " Installation", Status.skipped, some msg⟩] },
        (if ran then [e.pkg] else []),
        ["Failed to install " ++ e.name,
         "Task skipped: " ++ e.name ++ " Installation"]⟩

/-- Sequential composition of the editor sub-tasks. -/
def editorsFold (config : SetupConfig) (avail : String → Bool)
    (install : String → Option String) (ctx : SetupContext) : EditorStepOutcome :=
  (editorsFor ctx.platform).foldl
    (fun acc e =>
      let r := installEditorStep config avail install acc.ctx e
      ⟨r.ctx, acc.invoked ++ r.invoked, acc.logs ++ r.logs⟩)
    ⟨ctx, [], []⟩

/-- The "Install Editors" task (src/index.ts, lines 351-445): the whole
group is bypassed exactly when `config.skipEditors?.length ===
Object.keys(Editor).length`; otherwise the sub-tasks run sequentially. -/
def installEditorsTask (config : SetupConfig) (avail : String → Bool)
    (install : String → Option String) (ctx : SetupContext) : EditorStepOutcome :=
  if config.skipEditors.map List.length = some editorEnumKeys.length then
    ⟨ctx, [], ["Skipping editors installation as requested"]⟩
  else
    editorsFold config avail install ctx

/-! ## Concrete fixtures used by witnesses and counterexamples -/

/-- An availability probe that reports every tool available. -/
def allAvail : String → Bool := fun _ => true

/-- An availability probe that reports every tool missing. -/
def noneAvail : String → Bool := fun _ => false

/-- An install command that always succeeds. -/
def installOk : String → Option String := fun _ => none

/-- A fresh linux context with apt selected. -/
def ctxLinux : SetupContext := ⟨"linux", some "apt", [], [], []⟩

/-- The default CLI configuration: no options passed. -/
def emptyConfig : SetupConfig := ⟨none, none, false, none, none, none⟩

/-! ## Helper lemmas about sets and the core-tools step -/

theorem mem_addToSet (x y : String) (l : List String) :
    y ∈ addToSet x l ↔ y = x ∨ y ∈ l := by
  unfold addToSet
  split
  case isTrue h =>
    constructor
    · exact Or.inr
    · rintro (rfl | hy) <;> [exact h; exact hy]
  case isFalse h => simp [or_comm]

theorem mem_foldl_addToSet (l : List ToolCandidate) (s : List String) (y : String) :
    y ∈ l.foldl (fun acc t => addToSet t.label acc) s ↔
      y ∈ l.map (fun t => t.label) ∨ y ∈ s := by
  induction l generalizing s with
  | nil => simp
  | cons t ts ih =>
    simp only [List.foldl_cons, List.map_cons, List.mem_cons]
    rw [ih, mem_addToSet]
    tauto

/-- Both platform branches of `coreTools` carry exactly the four
`DevTool` labels. -/
theorem coreToolsFor_labels (platform : String) :
    (coreToolsFor platform).map (fun t => t.label) =
      ["git", "node", "graphviz", "python"] := by
  unfold coreToolsFor
  split <;> rfl

/-- Characterization of the "already installed" path of the core-tools
step: when the skip early-exit does not fire, at least one candidate
survives the policy filter, and every survivor's detection command is
available, the step takes the group-level skipped path. -/
theorem installCoreToolsTask_already (config : SetupConfig) (avail : String → Bool)
    (ctx : SetupContext)
    (hskip : ((config.skipTools.getD []).contains "git" &&
        (config.skipTools.getD []).contains "node") = false)
    (hpol : (policyFilterTools config (coreToolsFor ctx.platform)).1 ≠ [])
    (hmiss : ∀ t ∈ (policyFilterTools config (coreToolsFor ctx.platform)).1,
        avail t.command = true) :
    installCoreToolsTask config avail ctx =
      ⟨⟨ctx.platform, ctx.packageManager,
        (coreToolsFor ctx.platform).foldl (fun s t => addToSet t.label s)
          ctx.installedTools,
        ctx.installedEditors,
        (ctx.taskResults ++ (policyFilterTools config (coreToolsFor ctx.platform)).2) ++
          [⟨"Core Tools Installation", Status.skipped, some "Already installed"⟩]⟩,
        false, [],
        ["All core tools already available",
         "Task skipped: Core Tools Installation"]⟩ := by
  have hpe : (policyFilterTools config (coreToolsFor ctx.platform)).1.isEmpty = false := by
    rcases hp : (policyFilterTools config (coreToolsFor ctx.platform)).1 with _ | _
    · exact absurd hp hpol
    · rfl
  have hme : ((policyFilterTools config (coreToolsFor ctx.platform)).1.filter
      (fun t => !(avail t.command))).isEmpty = true := by
    rw [List.isEmpty_iff, List.filter_eq_nil_iff]
    intro t ht
    simp [hmiss t ht]
  unfold installCoreToolsTask
  simp only [hskip, Bool.false_eq_true, if_false, hpe, hme, if_true]

/-! ## Helper lemmas about the retry loop -/

/-- If the action fails on every invocation, the retry loop consumes all
its fuel, invokes the action once per unit of fuel plus once, and awaits
the exponential backoff delays in order. -/
theorem safeExecGo_allFail {T E : Type} (action : Nat → Except E T)
    (hfail : ∀ n, ∃ e, action n = Except.error e) (fallback : T) (b : Nat) :
    ∀ (remaining attempt calls : Nat) (delays : List Nat),
    safeExecGo action fallback b attempt remaining calls delays =
      ⟨fallback, calls + remaining + 1,
        delays ++ (List.range remaining).map (fun i => b * 2 ^ (attempt + i))⟩ := by
  intro remaining
  induction remaining with
  | zero =>
    intro attempt calls delays
    obtain ⟨e, he⟩ := hfail calls
    simp [safeExecGo, he]
  | succ r ih =>
    intro attempt calls delays
    obtain ⟨e, he⟩ := hfail calls
    rw [safeExecGo]
    simp only [he]
    rw [ih (attempt + 1) (calls + 1)]
    have hcalls : calls + 1 + r + 1 = calls + (r + 1) + 1 := by omega
    have hexp : ∀ i : Nat, b * 2 ^ (attempt + 1 + i) = b * 2 ^ (attempt + Nat.succ i) := by
      intro i
      have : attempt + 1 + i = attempt + Nat.succ i := by omega
      rw [this]
    rw [hcalls]
    have hdelays :
        (delays ++ [b * 2 ^ (attempt + 1 - 1)]) ++
            (List.range r).map (fun i => b * 2 ^ (attempt + 1 + i)) =
          delays ++ (List.range (r + 1)).map (fun i => b * 2 ^ (attempt + i)) := by
      rw [List.range_succ_eq_map, List.append_assoc]
      simp only [List.map_cons, List.map_map, Nat.add_zero, Nat.add_sub_cancel]
      congr 1
      simp only [List.singleton_append, List.cons.injEq, true_and]
      apply List.map_congr_left
      intro i _
      exact hexp i
    rw [hdelays]

/-- The retry loop returns either a successful value of the action or
the fallback. -/
theorem safeExecGo_result {T E : Type} (action : Nat → Except E T)
    (fallback : T) (b : Nat) :
    ∀ (remaining attempt calls : Nat) (delays : List Nat),
    (safeExecGo action fallback b attempt remaining calls delays).result = fallback ∨
      ∃ n v, action n = Except.ok v ∧
        (safeExecGo action fallback b attempt remaining calls delays).result = v := by
  intro remaining
  induction remaining with
  | zero =>
    intro attempt calls delays
    cases h : action calls with
    | ok v => exact Or.inr ⟨calls, v, h, by simp [safeExecGo, h]⟩
    | error e => exact Or.inl (by simp [safeExecGo, h])
  | succ r ih =>
    intro attempt calls delays
    cases h : action calls with
    | ok v => exact Or.inr ⟨calls, v, h, by simp [safeExecGo, h]⟩
    | error e =>
      have := ih (attempt + 1) (calls + 1)
        (delays ++ [b * 2 ^ (attempt + 1 - 1)])
      rw [safeExecGo]
      simp only [h]
      exact this

/-! ## Claims about the retrying executor -/

/-- C2: for an action that fails on every invocation and any retries
value N (dry-run off), `safeExecuteCommand` invokes the action exactly
N + 1 times, returns the fallback, and the delay awaited before retry
attempt k (the k-th element of the trace, k ≥ 1) is
`backoffMs * 2 ^ (k - 1)`. -/
theorem safeExecuteCommand_allFail_trace {T E : Type} (action : Nat → Except E T)
    (fallback : T) (t p cl : Option String) (retries b : Nat)
    (hfail : ∀ n, ∃ e, action n = Except.error e) :
    safeExecuteCommand action fallback ⟨t, p, some retries, some b, false, cl⟩ =
      ⟨fallback, retries + 1, (List.range retries).map (fun k => b * 2 ^ k)⟩ := by
  unfold safeExecuteCommand
  simp only [Bool.false_eq_true, if_false, Option.getD_some]
  rw [safeExecGo_allFail action hfail fallback b retries 0 0 []]
  simp

/-- Witness for C2: retries 2 and base 300 yield three invocations,
fallback 7, and delays 300 then 600. -/
theorem safeExecuteCommand_allFail_trace_witness :
    safeExecuteCommand (fun _ => (Except.error "boom" : Except String Nat)) 7
        ⟨none, none, some 2, some 300, false, some "core"⟩ =
      ⟨7, 3, [300, 600]⟩ := by
  rw [safeExecuteCommand_allFail_trace (fun _ => (Except.error "boom" : Except String Nat))
    7 none none (some "core") 2 300 (fun n => ⟨"boom", rfl⟩)]
  decide

/-- C4: with dry-run on, `safeExecuteCommand` returns the fallback with
zero invocations of the action, for every retries and backoff setting. -/
theorem safeExecuteCommand_dryRun {T E : Type} (action : Nat → Except E T)
    (fallback : T) (t p cl : Option String) (r b : Option Nat) :
    safeExecuteCommand action fallback ⟨t, p, r, b, true, cl⟩ =
      ⟨fallback, 0, []⟩ := rfl

/-- C5: `safeExecuteCommand` never propagates the action's error — its
result is either a successful value of the action or the fallback. -/
theorem safeExecuteCommand_never_propagates {T E : Type} (action : Nat → Except E T)
    (fallback : T) (options : ExecOptions) :
    (safeExecuteCommand action fallback options).result = fallback ∨
      ∃ n v, action n = Except.ok v ∧
        (safeExecuteCommand action fallback options).result = v := by
  unfold safeExecuteCommand
  split
  · exact Or.inl rfl
  · exact safeExecGo_result action fallback (options.backoffMs.getD 300)
      (options.retries.getD 0) 0 0 []

/-! ## Claim about the preflight disk-space signal -/

/-- C6: the preflight warnings contain the low-disk-space warning
exactly once when the disk probe measured a value strictly below
2048 MB, and not at all otherwise — in particular not for an
unavailable measurement (`none`). -/
theorem preflight_lowDisk_count (hasSudo : Bool) (disk : Option Nat) (net : Bool) :
    (runPreflightChecks hasSudo disk net).warnings.count lowDiskWarning =
      (if diskLow disk then 1 else 0) := by
  cases disk with
  | none => cases hasSudo <;> cases net <;> decide
  | some d =>
    rcases Nat.lt_or_ge d 2048 with hd | hd
    · cases hasSudo <;> cases net <;>
        simp [runPreflightChecks, diskLow, hd, lowDiskWarning, privilegeWarning,
          networkWarning, List.count_append, List.count_cons, List.count_nil]
    · have hd2 : ¬ d < 2048 := Nat.not_lt.mpr hd
      cases hasSudo <;> cases net <;>
        simp [runPreflightChecks, diskLow, hd2, lowDiskWarning, privilegeWarning,
          networkWarning, List.count_append, List.count_cons, List.count_nil]

/-! ## Claim about the environment probe -/

/-- C7: `detectOperatingSystem` always returns a member of the closed
set {win32, darwin, linux}, and every other platform string maps to
linux. -/
theorem detectOperatingSystem_closed (platform : String) :
    (detectOperatingSystem platform = "win32" ∨
      detectOperatingSystem platform = "darwin" ∨
      detectOperatingSystem platform = "linux") ∧
    (platform ≠ "win32" → platform ≠ "darwin" → platform ≠ "linux" →
      detectOperatingSystem platform = "linux") := by
  unfold detectOperatingSystem
  split
  case isTrue h =>
    refine ⟨h, fun h1 h2 h3 => ?_⟩
    rcases h with h | h | h <;> simp_all
  case isFalse h =>
    exact ⟨Or.inr (Or.inr rfl), fun _ _ _ => rfl⟩

/-- Witness for C7: an unrecognized platform string resolves to linux. -/
theorem detectOperatingSystem_closed_witness :
    detectOperatingSystem "freebsd" = "linux" :=
  (detectOperatingSystem_closed "freebsd").2 (by decide) (by decide) (by decide)

/-! ## Claim about the error classifier -/

/-- C8: classification is total — any value that is not a KitiumError
instance maps to kind "unknown", severity "error", not retryable. -/
theorem extractErrorMetadata_unknown_fallback (e : ErrValue)
    (h : e.isKitiumInstance = false) :
    (extractErrorMetadata e).kind = "unknown" ∧
      (extractErrorMetadata e).severity = "error" ∧
      (extractErrorMetadata e).retryable = false := by
  cases e with
  | kitium c k s sc r help docs => simp [ErrValue.isKitiumInstance] at h
  | other p => exact ⟨rfl, rfl, rfl⟩

/-- Witness for C8: a plain thrown string classifies to the unknown
metadata. -/
theorem extractErrorMetadata_unknown_fallback_witness :
    (extractErrorMetadata (ErrValue.other "boom")).kind = "unknown" ∧
      (extractErrorMetadata (ErrValue.other "boom")).severity = "error" ∧
      (extractErrorMetadata (ErrValue.other "boom")).retryable = false :=
  extractErrorMetadata_unknown_fallback (ErrValue.other "boom") rfl

/-! ## Claims about the pipeline's policy filter -/

/-- C3: a candidate on the blocklist is rejected with a skipped
"Blocked by policy" task result even when it is also on the allowlist
(the blocklist branch is evaluated first), while a candidate rejected
only by absence from a present allowlist is rejected with no task
result — in the core-tools filter and in the per-editor sub-task
alike. -/
theorem policy_block_precedence :
    (∀ (config : SetupConfig) (acc : List ToolCandidate × List TaskResult)
        (tool : ToolCandidate),
      (config.blocklist.getD []).contains tool.label = true →
      (config.allowlist.getD []).contains tool.label = true →
      policyFilterStep config acc tool =
        (acc.1, acc.2 ++ [blockedResult tool.label])) ∧
    (∀ (config : SetupConfig) (acc : List ToolCandidate × List TaskResult)
        (tool : ToolCandidate),
      (config.blocklist.getD []).contains tool.label = false →
      config.allowlist.isSome = true →
      (config.allowlist.getD []).contains tool.label = false →
      policyFilterStep config acc tool = acc) ∧
    (∀ (config : SetupConfig) (avail : String → Bool)
        (install : String → Option String) (ctx : SetupContext)
        (e : EditorCandidate),
      (config.blocklist.getD []).contains e.tool = true →
      (config.allowlist.getD []).contains e.tool = true →
      installEditorStep config avail install ctx e =
        ⟨⟨ctx.platform, ctx.packageManager, ctx.installedTools, ctx.installedEditors,
          ctx.taskResults ++
            [⟨e.name ++ " Installation", Status.skipped, some "Blocked by policy"⟩]⟩,
          [], [e.name ++ " is blocked by policy"]⟩) ∧
    (∀ (config : SetupConfig) (avail : String → Bool)
        (install : String → Option String) (ctx : SetupContext)
        (e : EditorCandidate),
      (config.blocklist.getD []).contains e.tool = false →
      config.allowlist.isSome = true →
      (config.allowlist.getD []).contains e.tool = false →
      installEditorStep config avail install ctx e =
        ⟨ctx, [], [e.name ++ " not in allowlist; skipping"]⟩) := by
  refine ⟨?_, ?_, ?_, ?_⟩
  · intro config acc tool hb ha
    simp only [policyFilterStep, hb, if_true]
  · intro config acc tool hb hs ha
    simp only [policyFilterStep, hb, Bool.false_eq_true, if_false, hs, ha,
      Bool.not_false, Bool.and_self, if_true]
  · intro config avail install ctx e hb ha
    simp only [installEditorStep, hb, if_true]
  · intro config avail install ctx e hb hs ha
    simp only [installEditorStep, hb, Bool.false_eq_true, if_false, hs, ha,
      Bool.not_false, Bool.and_self, if_true]

/-- Witness for C3, instantiating all four parts: git blocked while also
allowlisted (tools filter), node absent from the allowlist (tools
filter), Cursor blocked while also allowlisted (editor sub-task), and
VSCode absent from the allowlist (editor sub-task). -/
theorem policy_block_precedence_witness :
    policyFilterStep ⟨none, none, false, none, some ["git"], some ["git"]⟩ ([], [])
        ⟨"git", "git", "git"⟩ =
      ([], [blockedResult "git"]) ∧
    policyFilterStep ⟨none, none, false, none, some ["git"], none⟩ ([], [])
        ⟨"node", "node", "node"⟩ =
      ([], []) ∧
    installEditorStep ⟨none, none, false, none, some ["cursor"], some ["cursor"]⟩
        allAvail installOk ctxLinux ⟨"Cursor", "cursor", "cursor"⟩ =
      ⟨⟨"linux", some "apt", [], [],
        [⟨"Cursor Installation", Status.skipped, some "Blocked by policy"⟩]⟩,
        [], ["Cursor is blocked by policy"]⟩ ∧
    installEditorStep ⟨none, none, false, none, some ["cursor"], none⟩
        allAvail installOk ctxLinux ⟨"VSCode", "visual-studio-code", "vscode"⟩ =
      ⟨ctxLinux, [], ["VSCode not in allowlist; skipping"]⟩ := by
  refine ⟨?_, ?_, ?_, ?_⟩
  · exact policy_block_precedence.1 _ _ _ (by decide) (by decide)
  · exact policy_block_precedence.2.1 _ _ _ (by decide) (by decide) (by decide)
  · have h := policy_block_precedence.2.2.1
      ⟨none, none, false, none, some ["cursor"], some ["cursor"]⟩
      allAvail installOk ctxLinux ⟨"Cursor", "cursor", "cursor"⟩ (by decide) (by decide)
    simpa [ctxLinux] using h
  · exact policy_block_precedence.2.2.2 _ allAvail installOk ctxLinux _
      (by decide) (by decide) (by decide)

/-! ## Claims about the Install Core Tools step -/

/-- C9: whenever the core-tools step takes its already-installed path
(skip early-exit off, at least one policy survivor, every survivor
available), all four core tool identifiers land in `installedTools`,
including ones the policy filter rejected. -/
theorem coreTools_already_adds_all (config : SetupConfig) (avail : String → Bool)
    (ctx : SetupContext)
    (hskip : ((config.skipTools.getD []).contains "git" &&
        (config.skipTools.getD []).contains "node") = false)
    (hpol : (policyFilterTools config (coreToolsFor ctx.platform)).1 ≠ [])
    (hmiss : ∀ t ∈ (policyFilterTools config (coreToolsFor ctx.platform)).1,
        avail t.command = true) :
    "git" ∈ (installCoreToolsTask config avail ctx).ctx.installedTools ∧
    "node" ∈ (installCoreToolsTask config avail ctx).ctx.installedTools ∧
    "graphviz" ∈ (installCoreToolsTask config avail ctx).ctx.installedTools ∧
    "python" ∈ (installCoreToolsTask config avail ctx).ctx.installedTools := by
  rw [installCoreToolsTask_already config avail ctx hskip hpol hmiss]
  refine ⟨?_, ?_, ?_, ?_⟩ <;>
    · rw [mem_foldl_addToSet, coreToolsFor_labels]
      exact Or.inl (by decide)

/-- Witness for C9: git is blocklisted, yet with the three surviving
tools available, "git" still ends up in `installedTools`. -/
theorem coreTools_already_adds_all_witness :
    "git" ∈ (installCoreToolsTask ⟨none, none, false, none, none, some ["git"]⟩
        allAvail ctxLinux).ctx.installedTools ∧
    "node" ∈ (installCoreToolsTask ⟨none, none, false, none, none, some ["git"]⟩
        allAvail ctxLinux).ctx.installedTools ∧
    "graphviz" ∈ (installCoreToolsTask ⟨none, none, false, none, none, some ["git"]⟩
        allAvail ctxLinux).ctx.installedTools ∧
    "python" ∈ (installCoreToolsTask ⟨none, none, false, none, none, some ["git"]⟩
        allAvail ctxLinux).ctx.installedTools :=
  coreTools_already_adds_all ⟨none, none, false, none, none, some ["git"]⟩
    allAvail ctxLinux (by decide) (by decide) (by decide)

/-! ## Claims about idempotency recording (C1) -/

/-- C1 counterexample: on linux with default configuration, VSCode's
availability probe reports it present; the sub-task adds it to
`installedEditors` and runs no install command, but appends no task
result at all — in particular no skipped result with message
"Already installed" appears in `taskResults`, contrary to the claim. -/
theorem editor_already_available_counterexample :
    allAvail "visual-studio-code" = true ∧
    (installEditorStep emptyConfig allAvail installOk ctxLinux
        ⟨"VSCode", "visual-studio-code", "vscode"⟩).ctx.installedEditors =
      ["vscode"] ∧
    (installEditorStep emptyConfig allAvail installOk ctxLinux
        ⟨"VSCode", "visual-studio-code", "vscode"⟩).invoked = [] ∧
    (installEditorStep emptyConfig allAvail installOk ctxLinux
        ⟨"VSCode", "visual-studio-code", "vscode"⟩).ctx.taskResults = [] ∧
    ¬ ∃ r ∈ (installEditorStep emptyConfig allAvail installOk ctxLinux
        ⟨"VSCode", "visual-studio-code", "vscode"⟩).ctx.taskResults,
      r.status = Status.skipped ∧ r.message = some "Already installed" := by
  decide

/-- C1 (amended): an available editor is added to `installedEditors`
with no install command run, its skipped "Already installed" outcome
being only logged, never appended to `taskResults`; for core tools the
check is group-level — only when every policy survivor is available does
the step append one skipped "Already installed" task result, add all
core tool labels, and leave the executor uninvoked. -/
theorem already_available_paths :
    (∀ (config : SetupConfig) (avail : String → Bool)
        (install : String → Option String) (ctx : SetupContext)
        (e : EditorCandidate),
      (config.blocklist.getD []).contains e.tool = false →
      (config.allowlist.isSome && !((config.allowlist.getD []).contains e.tool)) = false →
      (config.skipEditors.getD []).contains e.tool = false →
      avail e.pkg = true →
      installEditorStep config avail install ctx e =
        ⟨⟨ctx.platform, ctx.packageManager, ctx.installedTools,
          addToSet e.tool ctx.installedEditors, ctx.taskResults⟩,
          [],
          [e.name ++ " already present; skipping install",
           "Task skipped: " ++ e.name ++ " Installation"]⟩) ∧
    (∀ (config : SetupConfig) (avail : String → Bool) (ctx : SetupContext),
      ((config.skipTools.getD []).contains "git" &&
        (config.skipTools.getD []).contains "node") = false →
      (policyFilterTools config (coreToolsFor ctx.platform)).1 ≠ [] →
      (∀ t ∈ (policyFilterTools config (coreToolsFor ctx.platform)).1,
          avail t.command = true) →
      (installCoreToolsTask config avail ctx).executorCalled = false ∧
      (installCoreToolsTask config avail ctx).invoked = [] ∧
      (installCoreToolsTask config avail ctx).ctx.taskResults =
        (ctx.taskResults ++ (policyFilterTools config (coreToolsFor ctx.platform)).2) ++
          [⟨"Core Tools Installation", Status.skipped, some "Already installed"⟩] ∧
      (∀ t ∈ coreToolsFor ctx.platform,
          t.label ∈ (installCoreToolsTask config avail ctx).ctx.installedTools)) := by
  constructor
  · intro config avail install ctx e hb ha hs hav
    simp only [installEditorStep, hb, Bool.false_eq_true, if_false, ha, hs, hav,
      if_true]
  · intro config avail ctx hskip hpol hmiss
    rw [installCoreToolsTask_already config avail ctx hskip hpol hmiss]
    refine ⟨rfl, rfl, rfl, ?_⟩
    intro t ht
    rw [mem_foldl_addToSet]
    exact Or.inl (List.mem_map_of_mem _ ht)

/-- Witness for C1 (amended): the editor part at an available VSCode on
a default linux setup, and the core-tools part with git blocklisted and
the survivors available. -/
theorem already_available_paths_witness :
    installEditorStep emptyConfig allAvail installOk ctxLinux
        ⟨"VSCode", "visual-studio-code", "vscode"⟩ =
      ⟨⟨"linux", some "apt", [], ["vscode"], []⟩, [],
        ["VSCode already present; skipping install",
         "Task skipped: VSCode Installation"]⟩ ∧
    ((installCoreToolsTask ⟨none, none, false, none, none, some ["git"]⟩
        allAvail ctxLinux).executorCalled = false ∧
      (installCoreToolsTask ⟨none, none, false, none, none, some ["git"]⟩
        allAvail ctxLinux).invoked = [] ∧
      (installCoreToolsTask ⟨none, none, false, none, none, some ["git"]⟩
        allAvail ctxLinux).ctx.taskResults =
        (ctxLinux.taskResults ++
          (policyFilterTools ⟨none, none, false, none, none, some ["git"]⟩
            (coreToolsFor ctxLinux.platform)).2) ++
          [⟨"Core Tools Installation", Status.skipped, some "Already installed"⟩] ∧
      (∀ t ∈ coreToolsFor ctxLinux.platform,
          t.label ∈ (installCoreToolsTask ⟨none, none, false, none, none, some ["git"]⟩
            allAvail ctxLinux).ctx.installedTools)) := by
  constructor
  · have h := already_available_paths.1 emptyConfig allAvail installOk ctxLinux
      ⟨"VSCode", "visual-studio-code", "vscode"⟩ (by decide) (by decide) (by decide)
      (by decide)
    simpa [ctxLinux, addToSet] using h
  · exact already_available_paths.2 ⟨none, none, false, none, none, some ["git"]⟩
      allAvail ctxLinux (by decide) (by decide) (by decide)

/-! ## Claim about the editors whole-group skip (C10) -/

/-- C10: the editors group's early exit is decided by the length of
`skipEditors` alone — it fires exactly when the list has length 3
(`Object.keys(Editor).length`), whatever the entries are; any other
length, duplicates included, and the absent case proceed to the
per-editor sub-tasks. -/
theorem editors_group_skip_by_length :
    (∀ (config : SetupConfig) (avail : String → Bool)
        (install : String → Option String) (ctx : SetupContext) (l : List String),
      config.skipEditors = some l → l.length = 3 →
      installEditorsTask config avail install ctx =
        ⟨ctx, [], ["Skipping editors installation as requested"]⟩) ∧
    (∀ (config : SetupConfig) (avail : String → Bool)
        (install : String → Option String) (ctx : SetupContext) (l : List String),
      config.skipEditors = some l → l.length ≠ 3 →
      installEditorsTask config avail install ctx =
        editorsFold config avail install ctx) ∧
    (∀ (config : SetupConfig) (avail : String → Bool)
        (install : String → Option String) (ctx : SetupContext),
      config.skipEditors = none →
      installEditorsTask config avail install ctx =
        editorsFold config avail install ctx) := by
  refine ⟨?_, ?_, ?_⟩
  · intro config avail install ctx l hsk hlen
    simp [installEditorsTask, hsk, hlen, editorEnumKeys]
  · intro config avail install ctx l hsk hlen
    simp [installEditorsTask, hsk, hlen, editorEnumKeys]
  · intro config avail install ctx hsk
    simp [installEditorsTask, hsk]

/-- Witness for C10: three garbage entries trigger the whole-group
bypass; the three valid identifiers plus a duplicate (length 4) do
not. -/
theorem editors_group_skip_by_length_witness :
    installEditorsTask ⟨none, some ["x", "y", "z"], false, none, none, none⟩
        allAvail installOk ctxLinux =
      ⟨ctxLinux, [], ["Skipping editors installation as requested"]⟩ ∧
    installEditorsTask
        ⟨none, some ["vscode", "cursor", "antigravity", "cursor"], false, none,
          none, none⟩ allAvail installOk ctxLinux =
      editorsFold
        ⟨none, some ["vscode", "cursor", "antigravity", "cursor"], false, none,
          none, none⟩ allAvail installOk ctxLinux := by
  constructor
  · exact editors_group_skip_by_length.1 _ allAvail installOk ctxLinux
      ["x", "y", "z"] rfl (by decide)
  · exact editors_group_skip_by_length.2.1 _ allAvail installOk ctxLinux
      ["vscode", "cursor", "antigravity", "cursor"] rfl (by decide)

end DevSetup
